import Mathlib

/-!
# Verification of the `burl` terrain engine and difficulty curriculum

A shallow embedding of `src/burl/sim/terrain.py` (classes `PlainTerrain`,
`HeightFieldTerrain`, `RandomUniformTerrain`, `TerrainCurriculum`) together
with the curriculum parameters of `src/burl/utils/config.py`.

Modelling conventions:
* Python floats are modelled as exact rationals (`ℚ`); the source's literal
  `1e-10` epsilon is kept as the exact rational `pyEps`.
* Python `int(q)` (truncation toward zero) is `ratTrunc`.
* `numpy` indexing `a[i]` accepts `-len ≤ i < len`, wrapping negative
  indices Python-style; anything else raises `IndexError`.  This is
  modelled by `Option`-valued access (`none` = `IndexError`).
* `numpy` slicing `a[i:j]` clamps indices as Python slices do (`pySlice`).
* `np.argmax` returns the flat index of the first occurrence of the
  maximum (`argmaxList`), and raises on an empty array, hence
  `getMaxHeightInRange` is `Option`-valued.
-/

/-- Python `int(q)`: truncation toward zero. -/
def ratTrunc (q : ℚ) : ℤ := if 0 ≤ q then ⌊q⌋ else -⌊-q⌋

/-- The literal `1e-10` appearing in `xCoord2Idx` / `yCoord2Idx`. -/
def pyEps : ℚ := 1 / 10000000000

/-- Python slice `l[a:b]` (step 1) with numpy/Python clamping semantics. -/
def pySlice {α : Type} (l : List α) (a b : ℤ) : List α :=
  let n : ℤ := l.length
  let s : ℤ := if a < 0 then max (a + n) 0 else min a n
  let e : ℤ := if b < 0 then max (b + n) 0 else min b n
  (l.drop s.toNat).take (e - s).toNat

/-- Tail of `np.argmax`: scan with current index `i`, best index and value. -/
def argmaxAux : List ℚ → ℕ → ℕ → ℚ → ℕ
  | [], _, best, _ => best
  | a :: rest, i, best, bv =>
    if bv < a then argmaxAux rest (i + 1) i a else argmaxAux rest (i + 1) best bv

/-- Model of `np.argmax` over a flattened array: index of the first maximum. -/
def argmaxList : List ℚ → ℕ
  | [] => 0
  | a :: rest => argmaxAux rest 1 0 a

/-- A vertex `(x, y, z)` as produced by `getNearestVertices`. -/
abbrev V3 : Type := ℚ × ℚ × ℚ

/-- Embeds `HeightFieldTerrain(bullet_client, height_field, resolution, offset)`:
the elevation grid is row-major, `heightField[y][x]`; `x_rsl`/`y_rsl` are
the per-axis resolutions and `offset` the world offset of the grid center. -/
structure HeightFieldTerrain where
  heightField : List (List ℚ)
  xRsl : ℚ
  yRsl : ℚ
  offsetX : ℚ
  offsetY : ℚ
  offsetZ : ℚ

namespace HeightFieldTerrain

/-- Model of `self.y_dim` (`height_field.shape[0]`). -/
def yDim (t : HeightFieldTerrain) : ℕ := t.heightField.length

/-- Model of `self.x_dim` (`height_field.shape[1]`). -/
def xDim (t : HeightFieldTerrain) : ℕ := t.heightField.headI.length

/-- Model of `self.x_size = (x_dim - 1) * resolution`. -/
def xSize (t : HeightFieldTerrain) : ℚ := ((t.xDim - 1 : ℕ) : ℚ) * t.xRsl

/-- Model of `self.y_size = (y_dim - 1) * resolution`. -/
def ySize (t : HeightFieldTerrain) : ℚ := ((t.yDim - 1 : ℕ) : ℚ) * t.yRsl

/-- The grid sample at row `y`, column `x` (plain, in-range access). -/
def hfGet (t : HeightFieldTerrain) (y x : ℕ) : ℚ :=
  (t.heightField.getD y []).getD x 0

/-- Model of `self.height_field[y, x]` with numpy semantics: negative indices in
`[-dim, -1]` wrap around; indices outside `[-dim, dim)` raise `IndexError`
(modelled as `none`). -/
def npGet (t : HeightFieldTerrain) (y x : ℤ) : Option ℚ :=
  if -(t.yDim : ℤ) ≤ y ∧ y < (t.yDim : ℤ) ∧ -(t.xDim : ℤ) ≤ x ∧ x < (t.xDim : ℤ) then
    some (t.hfGet (if y < 0 then y + t.yDim else y).toNat (if x < 0 then x + t.xDim else x).toNat)
  else none

/-- Rectangularity and positivity invariants of a numpy height field. -/
def wellFormed (t : HeightFieldTerrain) : Prop :=
  2 ≤ t.yDim ∧ 2 ≤ t.xDim ∧ (∀ row ∈ t.heightField, row.length = t.xDim) ∧
    0 < t.xRsl ∧ 0 < t.yRsl

instance (t : HeightFieldTerrain) : Decidable t.wellFormed := by
  unfold wellFormed; infer_instance

/-- Model of `xCoord2Idx`: `int((x + 1e-10 + x_size/2 - offset[0]) / x_rsl)`. -/
def xCoord2Idx (t : HeightFieldTerrain) (x : ℚ) : ℤ :=
  ratTrunc ((x + pyEps + t.xSize / 2 - t.offsetX) / t.xRsl)

/-- Model of `yCoord2Idx`: `int((y + 1e-10 + y_size/2 - offset[1]) / y_rsl)`. -/
def yCoord2Idx (t : HeightFieldTerrain) (y : ℚ) : ℤ :=
  ratTrunc ((y + pyEps + t.ySize / 2 - t.offsetY) / t.yRsl)

/-- Model of `xIdx2Coord`: `x_idx * x_rsl - x_size/2 + offset[0]`. -/
def xIdx2Coord (t : HeightFieldTerrain) (xIdx : ℤ) : ℚ :=
  (xIdx : ℚ) * t.xRsl - t.xSize / 2 + t.offsetX

/-- Model of `yIdx2Coord`: `y_idx * y_rsl - y_size/2 + offset[1]`. -/
def yIdx2Coord (t : HeightFieldTerrain) (yIdx : ℤ) : ℚ :=
  (yIdx : ℚ) * t.yRsl - t.ySize / 2 + t.offsetY

/-- Model of `getNearestVertices(x, y)`: pick the lower-left or upper-right triangle
of the cell containing `(x, y)` and return its three vertices; `none`
models the `IndexError` escaping to the caller. -/
def getNearestVertices (t : HeightFieldTerrain) (x y : ℚ) : Option (V3 × V3 × V3) :=
  let xIdx := t.xCoord2Idx x
  let yIdx := t.yCoord2Idx y
  let xRnd := t.xIdx2Coord xIdx
  let yRnd := t.yIdx2Coord yIdx
  let v1opt : Option V3 :=
    if (x - xRnd) / t.xRsl + (y - yRnd) / t.yRsl < 1 then
      (t.npGet yIdx xIdx).map (fun z => ((xRnd, yRnd, z) : V3))
    else
      (t.npGet (yIdx + 1) (xIdx + 1)).map
        (fun z => ((xRnd + t.xRsl, yRnd + t.yRsl, z) : V3))
  match v1opt, t.npGet (yIdx + 1) xIdx, t.npGet yIdx (xIdx + 1) with
  | some v1, some z2, some z3 =>
    some (v1, (xRnd, yRnd + t.yRsl, z2), (xRnd + t.xRsl, yRnd, z3))
  | _, _, _ => none

/-- Model of `getHeight(x, y)`: triangle interpolation; an `IndexError` from
`getNearestVertices` yields `0.0`. -/
def getHeight (t : HeightFieldTerrain) (x y : ℚ) : ℚ :=
  match t.getNearestVertices x y with
  | none => 0
  | some (v1, v2, v3) =>
    if x = v1.1 ∧ y = v1.2.1 then v1.2.2
    else
      let x1 := v2.1 - v1.1
      let y1 := v2.2.1 - v1.2.1
      let z1 := v2.2.2 - v1.2.2
      let x2 := v3.1 - v1.1
      let y2 := v3.2.1 - v1.2.1
      let z2 := v3.2.2 - v1.2.2
      let x3 := x - v1.1
      let y3 := y - v1.2.1
      let div := x1 * y2 - x2 * y1
      let c1 := (x3 * y2 - x2 * y3) / div
      let c2 := (x1 * y3 - x3 * y1) / div
      c1 * z1 + c2 * z2 + v1.2.2 + t.offsetZ

/-- Model of `getMaxHeightInRange(x_range, y_range)`: slice the grid between the
converted index bounds (upper bound expanded by one), locate the first
maximum of the slice (`np.argmax` row-major) and report its position
relative to the query's lower corner.  `none` models the `ValueError`
`np.argmax` raises on an empty slice. -/
def getMaxHeightInRange (t : HeightFieldTerrain) (xRange yRange : ℚ × ℚ) :
    Option (ℚ × ℚ × ℚ) :=
  let xLowerIdx := t.xCoord2Idx xRange.1
  let xUpperIdx := t.xCoord2Idx xRange.2 + 1
  let yLowerIdx := t.yCoord2Idx yRange.1
  let yUpperIdx := t.yCoord2Idx yRange.2 + 1
  let part := (pySlice t.heightField yLowerIdx yUpperIdx).map
    (fun row => pySlice row xLowerIdx xUpperIdx)
  let flat := part.flatten
  if flat.isEmpty then none
  else
    let xSizePart := part.headI.length
    let maxIdx := argmaxList flat
    let maxXIdx := maxIdx % xSizePart
    let maxYIdx := maxIdx / xSizePart
    let maxHeight := (part.getD maxYIdx []).getD maxXIdx 0
    some (xRange.1 + (maxXIdx : ℚ) * t.xRsl, yRange.1 + (maxYIdx : ℚ) * t.yRsl, maxHeight)

end HeightFieldTerrain

namespace HeightFieldTerrain

/-- Grid access with integer indices clamped through `toNat` (used to state
properties about in-range cells, where `0 ≤ y` and `0 ≤ x`). -/
def hfGetZ (t : HeightFieldTerrain) (y x : ℤ) : ℚ := t.hfGet y.toNat x.toNat

/-- The spec's `toIndex` formula taken literally:
`floor((coord + axis_size/2 − axis_offset) / axis_resolution)` (x axis). -/
def specToIndexX (t : HeightFieldTerrain) (x : ℚ) : ℤ :=
  ⌊(x + t.xSize / 2 - t.offsetX) / t.xRsl⌋

/-- The spec's `toIndex` formula taken literally (y axis). -/
def specToIndexY (t : HeightFieldTerrain) (y : ℚ) : ℤ :=
  ⌊(y + t.ySize / 2 - t.offsetY) / t.yRsl⌋

/-- The affine plane interpolating the lower-left triangle of cell
`(ix, iy)`: the triangle with vertices at indices `(iy, ix)`, `(iy+1, ix)`
and `(iy, ix+1)`.  This is the closed form of the `c1/c2` solution of
`getHeight` on that triangle. -/
def planeL (t : HeightFieldTerrain) (ix iy : ℤ) (x y : ℚ) : ℚ :=
  ((y - t.yIdx2Coord iy) / t.yRsl) * (t.hfGetZ (iy + 1) ix - t.hfGetZ iy ix) +
  ((x - t.xIdx2Coord ix) / t.xRsl) * (t.hfGetZ iy (ix + 1) - t.hfGetZ iy ix) +
  t.hfGetZ iy ix + t.offsetZ

/-- The affine plane interpolating the upper-right triangle of cell
`(ix, iy)`: vertices at indices `(iy+1, ix+1)`, `(iy+1, ix)`, `(iy, ix+1)`. -/
def planeU (t : HeightFieldTerrain) (ix iy : ℤ) (x y : ℚ) : ℚ :=
  (-(x - t.xIdx2Coord (ix + 1)) / t.xRsl) *
    (t.hfGetZ (iy + 1) ix - t.hfGetZ (iy + 1) (ix + 1)) +
  (-(y - t.yIdx2Coord (iy + 1)) / t.yRsl) *
    (t.hfGetZ iy (ix + 1) - t.hfGetZ (iy + 1) (ix + 1)) +
  t.hfGetZ (iy + 1) (ix + 1) + t.offsetZ

end HeightFieldTerrain

/-- The spec's description of `PlainTerrain`'s peak query taken literally:
the region's center point at height 0. -/
def specPlainPeak (xRange yRange : ℚ × ℚ) : V3 :=
  ((xRange.1 + xRange.2) / 2, (yRange.1 + yRange.2) / 2, 0)

/-- Model of `np.arange(start, stop, step)` for a positive step. -/
def npArange (start stop step : ℚ) : List ℚ :=
  (List.range (max 0 ⌈(stop - start) / step⌉).toNat).map (fun k => start + (k : ℚ) * step)

/-- Model of `np.linspace(start, stop, num)` (endpoints included). -/
def npLinspace (start stop : ℚ) (num : ℕ) : List ℚ :=
  if num = 0 then []
  else if num = 1 then [start]
  else (List.range num).map (fun k => start + (k : ℚ) * ((stop - start) / ((num : ℚ) - 1)))

/-- Model of `np.random.seed(seed)` on the process-wide RNG: a concrete seed resets
the generator to a state depending only on the seed (`mtInit`); `None`
reseeds from ambient OS entropy. -/
def npSeedState (mtInit : ℤ → ℕ) (entropy : ℕ) : Option ℤ → ℕ
  | some s => mtInit s
  | none => entropy

/-- Model of the `RandomUniformTerrain.__init__` height-field synthesis, with the numpy
Mersenne-Twister and the scipy `interp2d` cubic fit abstracted as explicit
deterministic functions: `mtInit` maps a seed to an RNG state, `unitStream s k`
is the `k`-th `uniform(0, 1)` draw from state `s`, and `fit coords samples`
is the interpolant fitted through the coarse samples.  The function seeds
the global RNG, draws the coarse grid scaled by `roughness`, fits the
interpolant and evaluates it on the upsampled grid. -/
def randomUniformHeightField (mtInit : ℤ → ℕ) (unitStream : ℕ → ℕ → ℚ)
    (fit : List ℚ → List (List ℚ) → ℚ → ℚ → ℚ)
    (size : ℚ) (downsample : ℕ) (roughness resolution : ℚ)
    (seed : Option ℤ) (entropy : ℕ) : List (List ℚ) :=
  let state := npSeedState mtInit entropy seed
  let sampleRsl := (downsample : ℚ) * resolution
  let coords := npArange (-size / 2 - 3 * sampleRsl) (size / 2 + 4 * sampleRsl) sampleRsl
  let n := coords.length
  let downsampled := (List.range n).map (fun i =>
    (List.range n).map (fun j => roughness * unitStream state (i * n + j)))
  let terrainFunc := fit coords downsampled
  let dataSize := (ratTrunc (size / resolution) + 1).toNat
  let upsampled := npLinspace (-size / 2) (size / 2) dataSize
  upsampled.map (fun yv => upsampled.map (fun xv => terrainFunc xv yv))

/-- The curriculum parameters read from the configuration singleton
(`TerrainCurriculumParam` / `SimParam` in `burl/utils/config.py`). -/
structure CurriculumCfg where
  combo_threshold : ℕ
  miss_threshold : ℕ
  difficulty_step : ℚ
  max_difficulty : ℚ
  distance_threshold : ℚ × ℚ
  max_sim_iterations : ℕ

/-- The default configuration values of `burl/utils/config.py`. -/
def defaultCfg : CurriculumCfg :=
  { combo_threshold := 5, miss_threshold := 3, difficulty_step := 1/100,
    max_difficulty := 3/10, distance_threshold := (5/2, 5), max_sim_iterations := 8000 }

/-- The mutable fields of `TerrainCurriculum`. -/
structure CurriculumState where
  counter : ℕ
  difficulty : ℚ
  difficulty_level : ℤ
  combo : ℕ
  miss : ℕ
deriving DecidableEq

/-- Model of `TerrainCurriculum.__init__`: counters at zero, difficulty 0.0, level 0. -/
def initCurriculum : CurriculumState :=
  { counter := 0, difficulty := 0, difficulty_level := 0, combo := 0, miss := 0 }

/-- Model of `TerrainCurriculum.decreaseLevel`. -/
def decreaseLevel (cfg : CurriculumCfg) (s : CurriculumState) : CurriculumState :=
  if 0 < s.difficulty_level then
    { s with difficulty := s.difficulty - cfg.difficulty_step,
             difficulty_level := s.difficulty_level - 1 }
  else s

/-- Model of `TerrainCurriculum.increaseLevel`. -/
def increaseLevel (cfg : CurriculumCfg) (s : CurriculumState) : CurriculumState :=
  if s.difficulty < cfg.max_difficulty then
    { s with difficulty := s.difficulty + cfg.difficulty_step,
             difficulty_level := s.difficulty_level + 1 }
  else s

/-- Model of `TerrainCurriculum.register(episode_len, distance)`: returns the new
state and the boolean the method returns. -/
def register (cfg : CurriculumCfg) (s : CurriculumState)
    (episode_len : ℕ) (distance : ℚ) : CurriculumState × Bool :=
  let s1 :=
    if episode_len = cfg.max_sim_iterations then
      { s with counter := s.counter + 1, miss := 0, combo := s.combo + 1 }
    else
      { s with counter := s.counter + 1, combo := 0, miss := s.miss + 1 }
  if s1.combo < cfg.combo_threshold ∧ s1.miss < cfg.miss_threshold then (s1, false)
  else if cfg.miss_threshold ≤ s1.miss then (decreaseLevel cfg s1, true)
  else if cfg.combo_threshold ≤ s1.combo then
    (if cfg.distance_threshold.2 < distance then (increaseLevel cfg s1, true)
     else if distance < cfg.distance_threshold.1 then (decreaseLevel cfg s1, true)
     else (s1, true))
  else (s1, true)

/-- Folding `register` over a list of `(episode_len, distance)` outcomes,
starting from the freshly constructed curriculum. -/
def runCurriculum (cfg : CurriculumCfg) (outcomes : List (ℕ × ℚ)) : CurriculumState :=
  outcomes.foldl (fun s o => (register cfg s o.1 o.2).1) initCurriculum

/-- The curriculum's difficulty invariant, for `max_level = k`:
the difficulty is exactly `level * difficulty_step` and the level stays in
`[0, k]`. -/
def curriculumInv (cfg : CurriculumCfg) (k : ℕ) (s : CurriculumState) : Prop :=
  s.difficulty = (s.difficulty_level : ℚ) * cfg.difficulty_step ∧
  0 ≤ s.difficulty_level ∧ s.difficulty_level ≤ (k : ℤ)

/-- Model of `PlainTerrain.getHeight`: always `0.0`. -/
def plainGetHeight (_x _y : ℚ) : ℚ := 0

/-- Model of `PlainTerrain.getNormal`: always `(0, 0, 1)`. -/
def plainGetNormal (_x _y : ℚ) : V3 := (0, 0, 1)

/-- Model of `PlainTerrain.getMaxHeightInRange`: always `(0.0, 0.0, 0.0)`. -/
def plainGetMaxHeightInRange (_xRange _yRange : ℚ × ℚ) : V3 := (0, 0, 0)

/-- The 5×5 example grid of §8 of the spec: resolution 1 m, zero offset,
all elevations 0 except `height_field[2][2] = 1` (world coordinate (0,0)). -/
def exT5 : HeightFieldTerrain :=
  { heightField := [[0,0,0,0,0],[0,0,0,0,0],[0,0,1,0,0],[0,0,0,0,0],[0,0,0,0,0]]
    xRsl := 1, yRsl := 1, offsetX := 0, offsetY := 0, offsetZ := 0 }

/-- The 5×5 grid with a nonzero vertical offset (0, 0, 1): exposes the
missing `offset[2]` in `getHeight`'s exact-vertex shortcut. -/
def exToff : HeightFieldTerrain :=
  { heightField := [[0,0,0,0,0],[0,0,0,0,0],[0,0,1,0,0],[0,0,0,0,0],[0,0,0,0,0]]
    xRsl := 1, yRsl := 1, offsetX := 0, offsetY := 0, offsetZ := 1 }

/-- Grid with a nonzero sample in the last row and column: exposes numpy's
negative-index wrap-around in below-grid queries. -/
def exTwrap : HeightFieldTerrain :=
  { heightField := [[0,0,0,0,0],[0,0,0,0,0],[0,0,0,0,0],[0,0,0,0,0],[0,0,0,0,1]]
    xRsl := 1, yRsl := 1, offsetX := 0, offsetY := 0, offsetZ := 0 }

/-- The configuration of the spec's end-to-end curriculum scenario:
combo 3, miss 2, step 0.05, max 0.3, distance range (2.0, 4.0). -/
def scenarioCfg : CurriculumCfg :=
  { combo_threshold := 3, miss_threshold := 2, difficulty_step := 1/20,
    max_difficulty := 3/10, distance_threshold := (2, 4), max_sim_iterations := 8000 }

/-! ## Curriculum lemmas -/

lemma decreaseLevel_miss (cfg : CurriculumCfg) (s : CurriculumState) :
    (decreaseLevel cfg s).miss = s.miss := by
  unfold decreaseLevel; split_ifs <;> rfl

lemma decreaseLevel_combo (cfg : CurriculumCfg) (s : CurriculumState) :
    (decreaseLevel cfg s).combo = s.combo := by
  unfold decreaseLevel; split_ifs <;> rfl

lemma increaseLevel_miss (cfg : CurriculumCfg) (s : CurriculumState) :
    (increaseLevel cfg s).miss = s.miss := by
  unfold increaseLevel; split_ifs <;> rfl

lemma increaseLevel_combo (cfg : CurriculumCfg) (s : CurriculumState) :
    (increaseLevel cfg s).combo = s.combo := by
  unfold increaseLevel; split_ifs <;> rfl

lemma decreaseLevel_inv (cfg : CurriculumCfg) (k : ℕ) (s : CurriculumState)
    (h : curriculumInv cfg k s) : curriculumInv cfg k (decreaseLevel cfg s) := by
  obtain ⟨h1, h2, h3⟩ := h
  unfold curriculumInv decreaseLevel
  split_ifs with hl
  · refine ⟨?_, by simp; omega, by simp; omega⟩
    simp only [h1]
    push_cast
    ring
  · exact ⟨h1, h2, h3⟩

lemma increaseLevel_inv (cfg : CurriculumCfg) (k : ℕ)
    (hstep : 0 < cfg.difficulty_step)
    (hmax : cfg.max_difficulty = (k : ℚ) * cfg.difficulty_step)
    (s : CurriculumState) (h : curriculumInv cfg k s) :
    curriculumInv cfg k (increaseLevel cfg s) := by
  obtain ⟨h1, h2, h3⟩ := h
  unfold curriculumInv increaseLevel
  split_ifs with hd
  · have hlt : s.difficulty_level < (k : ℤ) := by
      by_contra hge
      push_neg at hge
      have hcast : (k : ℚ) ≤ (s.difficulty_level : ℚ) := by exact_mod_cast hge
      have : cfg.max_difficulty ≤ s.difficulty := by
        rw [h1, hmax]
        nlinarith
      linarith
    refine ⟨?_, by simp; omega, by simp; omega⟩
    simp only [h1]
    push_cast
    ring
  · exact ⟨h1, h2, h3⟩

lemma register_inv (cfg : CurriculumCfg) (k : ℕ)
    (hstep : 0 < cfg.difficulty_step)
    (hmax : cfg.max_difficulty = (k : ℚ) * cfg.difficulty_step)
    (s : CurriculumState) (episode_len : ℕ) (distance : ℚ)
    (h : curriculumInv cfg k s) :
    curriculumInv cfg k (register cfg s episode_len distance).1 := by
  have hstreak : ∀ s' : CurriculumState,
      s'.difficulty = s.difficulty → s'.difficulty_level = s.difficulty_level →
      curriculumInv cfg k s' := by
    intro s' hd hl
    exact ⟨by rw [hd, hl, h.1], by rw [hl]; exact h.2.1, by rw [hl]; exact h.2.2⟩
  unfold register
  dsimp only
  split_ifs <;> dsimp only <;>
    first
      | exact hstreak _ rfl rfl
      | exact decreaseLevel_inv cfg k _ (hstreak _ rfl rfl)
      | exact increaseLevel_inv cfg k hstep hmax _ (hstreak _ rfl rfl)

lemma runCurriculum_inv (cfg : CurriculumCfg) (k : ℕ)
    (hstep : 0 < cfg.difficulty_step)
    (hmax : cfg.max_difficulty = (k : ℚ) * cfg.difficulty_step)
    (outcomes : List (ℕ × ℚ)) :
    curriculumInv cfg k (runCurriculum cfg outcomes) := by
  have key : ∀ (os : List (ℕ × ℚ)) (s : CurriculumState), curriculumInv cfg k s →
      curriculumInv cfg k (os.foldl (fun s o => (register cfg s o.1 o.2).1) s) := by
    intro os
    induction os with
    | nil => intro s hs; simpa using hs
    | cons o rest ih =>
      intro s hs
      exact ih _ (register_inv cfg k hstep hmax s o.1 o.2 hs)
  exact key outcomes initCurriculum ⟨by simp [initCurriculum], by simp [initCurriculum],
    by simp [initCurriculum]⟩

/-! ## Grid query lemmas -/

lemma ratTrunc_eq_floor (q : ℚ) (h : 0 ≤ q) : ratTrunc q = ⌊q⌋ := by
  unfold ratTrunc
  exact if_pos h

lemma floor_nat_add_of_lt_one (i : ℕ) (d : ℚ) (h0 : 0 ≤ d) (h1 : d < 1) :
    ⌊(i : ℚ) + d⌋ = (i : ℤ) := by
  rw [Int.floor_eq_iff]
  constructor
  · push_cast
    linarith
  · push_cast
    linarith

lemma floor_int_add_of_lt_one (i : ℤ) (d : ℚ) (h0 : 0 ≤ d) (h1 : d < 1) :
    ⌊(i : ℚ) + d⌋ = i := by
  rw [Int.floor_eq_iff]
  constructor
  · linarith
  · have : ((i + 1 : ℤ) : ℚ) = (i : ℚ) + 1 := by push_cast; ring
    linarith

lemma xCoord2Idx_xIdx2Coord (t : HeightFieldTerrain) (hx : pyEps < t.xRsl)
    (i : ℤ) (hi : 0 ≤ i) : t.xCoord2Idx (t.xIdx2Coord i) = i := by
  have heps : (0 : ℚ) < pyEps := by norm_num [pyEps]
  have hx0 : 0 < t.xRsl := lt_trans heps hx
  have hiq : (0 : ℚ) ≤ (i : ℚ) := by exact_mod_cast hi
  unfold HeightFieldTerrain.xCoord2Idx HeightFieldTerrain.xIdx2Coord
  have harg : ((i : ℚ) * t.xRsl - t.xSize / 2 + t.offsetX + pyEps + t.xSize / 2
      - t.offsetX) / t.xRsl = (i : ℚ) + pyEps / t.xRsl := by
    field_simp
    ring
  rw [harg, ratTrunc_eq_floor _ (add_nonneg hiq (div_nonneg heps.le hx0.le))]
  exact floor_int_add_of_lt_one i _ (div_nonneg heps.le hx0.le)
    (by rw [div_lt_one hx0]; exact hx)

lemma yCoord2Idx_yIdx2Coord (t : HeightFieldTerrain) (hy : pyEps < t.yRsl)
    (i : ℤ) (hi : 0 ≤ i) : t.yCoord2Idx (t.yIdx2Coord i) = i := by
  have heps : (0 : ℚ) < pyEps := by norm_num [pyEps]
  have hy0 : 0 < t.yRsl := lt_trans heps hy
  have hiq : (0 : ℚ) ≤ (i : ℚ) := by exact_mod_cast hi
  unfold HeightFieldTerrain.yCoord2Idx HeightFieldTerrain.yIdx2Coord
  have harg : ((i : ℚ) * t.yRsl - t.ySize / 2 + t.offsetY + pyEps + t.ySize / 2
      - t.offsetY) / t.yRsl = (i : ℚ) + pyEps / t.yRsl := by
    field_simp
    ring
  rw [harg, ratTrunc_eq_floor _ (add_nonneg hiq (div_nonneg heps.le hy0.le))]
  exact floor_int_add_of_lt_one i _ (div_nonneg heps.le hy0.le)
    (by rw [div_lt_one hy0]; exact hy)

lemma npGet_eq_hfGetZ (t : HeightFieldTerrain) (y x : ℤ)
    (hy0 : 0 ≤ y) (hy1 : y < (t.yDim : ℤ)) (hx0 : 0 ≤ x) (hx1 : x < (t.xDim : ℤ)) :
    t.npGet y x = some (t.hfGetZ y x) := by
  unfold HeightFieldTerrain.npGet HeightFieldTerrain.hfGetZ
  rw [if_pos ⟨by omega, hy1, by omega, hx1⟩, if_neg (by omega), if_neg (by omega)]

lemma getNearestVertices_in_bounds (t : HeightFieldTerrain) (x y : ℚ)
    (ix iy : ℤ) (hxi : t.xCoord2Idx x = ix) (hyi : t.yCoord2Idx y = iy)
    (hix0 : 0 ≤ ix) (hix1 : ix + 1 < (t.xDim : ℤ))
    (hiy0 : 0 ≤ iy) (hiy1 : iy + 1 < (t.yDim : ℤ)) :
    t.getNearestVertices x y =
      if (x - t.xIdx2Coord ix) / t.xRsl + (y - t.yIdx2Coord iy) / t.yRsl < 1 then
        some ((t.xIdx2Coord ix, t.yIdx2Coord iy, t.hfGetZ iy ix),
              (t.xIdx2Coord ix, t.yIdx2Coord iy + t.yRsl, t.hfGetZ (iy + 1) ix),
              (t.xIdx2Coord ix + t.xRsl, t.yIdx2Coord iy, t.hfGetZ iy (ix + 1)))
      else
        some ((t.xIdx2Coord ix + t.xRsl, t.yIdx2Coord iy + t.yRsl,
                t.hfGetZ (iy + 1) (ix + 1)),
              (t.xIdx2Coord ix, t.yIdx2Coord iy + t.yRsl, t.hfGetZ (iy + 1) ix),
              (t.xIdx2Coord ix + t.xRsl, t.yIdx2Coord iy, t.hfGetZ iy (ix + 1))) := by
  unfold HeightFieldTerrain.getNearestVertices
  dsimp only
  rw [hxi, hyi,
      npGet_eq_hfGetZ t iy ix hiy0 (by omega) hix0 (by omega),
      npGet_eq_hfGetZ t (iy + 1) ix (by omega) (by omega) hix0 (by omega),
      npGet_eq_hfGetZ t iy (ix + 1) hiy0 (by omega) (by omega) (by omega),
      npGet_eq_hfGetZ t (iy + 1) (ix + 1) (by omega) (by omega) (by omega) (by omega)]
  split_ifs <;> rfl

lemma getHeight_lower_eq_planeL (t : HeightFieldTerrain) (x y : ℚ) (ix iy : ℤ)
    (hxi : t.xCoord2Idx x = ix) (hyi : t.yCoord2Idx y = iy)
    (hix0 : 0 ≤ ix) (hix1 : ix + 1 < (t.xDim : ℤ))
    (hiy0 : 0 ≤ iy) (hiy1 : iy + 1 < (t.yDim : ℤ))
    (h0x : 0 < t.xRsl) (h0y : 0 < t.yRsl)
    (hfrac : (x - t.xIdx2Coord ix) / t.xRsl + (y - t.yIdx2Coord iy) / t.yRsl < 1)
    (hvx : ¬(x = t.xIdx2Coord ix ∧ y = t.yIdx2Coord iy)) :
    t.getHeight x y = t.planeL ix iy x y := by
  unfold HeightFieldTerrain.getHeight
  rw [getNearestVertices_in_bounds t x y ix iy hxi hyi hix0 hix1 hiy0 hiy1,
    if_pos hfrac]
  dsimp only
  rw [if_neg hvx]
  unfold HeightFieldTerrain.planeL
  simp only [sub_self, add_sub_cancel_left, zero_mul, mul_zero, zero_sub, sub_zero]
  field_simp
  ring

lemma getHeight_upper_eq_planeU (t : HeightFieldTerrain) (x y : ℚ) (ix iy : ℤ)
    (hxi : t.xCoord2Idx x = ix) (hyi : t.yCoord2Idx y = iy)
    (hix0 : 0 ≤ ix) (hix1 : ix + 1 < (t.xDim : ℤ))
    (hiy0 : 0 ≤ iy) (hiy1 : iy + 1 < (t.yDim : ℤ))
    (h0x : 0 < t.xRsl) (h0y : 0 < t.yRsl)
    (hfrac : ¬((x - t.xIdx2Coord ix) / t.xRsl + (y - t.yIdx2Coord iy) / t.yRsl < 1))
    (hvx : ¬(x = t.xIdx2Coord ix + t.xRsl ∧ y = t.yIdx2Coord iy + t.yRsl)) :
    t.getHeight x y = t.planeU ix iy x y := by
  unfold HeightFieldTerrain.getHeight
  rw [getNearestVertices_in_bounds t x y ix iy hxi hyi hix0 hix1 hiy0 hiy1,
    if_neg hfrac]
  dsimp only
  rw [if_neg hvx]
  unfold HeightFieldTerrain.planeU
  unfold HeightFieldTerrain.xIdx2Coord HeightFieldTerrain.yIdx2Coord
  simp only [sub_self]
  field_simp
  ring

lemma getNearestVertices_none_of_access_none (t : HeightFieldTerrain) (x y : ℚ)
    (h : t.npGet (t.yCoord2Idx y + 1) (t.xCoord2Idx x) = none ∨
         t.npGet (t.yCoord2Idx y) (t.xCoord2Idx x + 1) = none) :
    t.getNearestVertices x y = none := by
  unfold HeightFieldTerrain.getNearestVertices
  dsimp only
  rcases h with h | h <;>
  · split
    · simp_all
    · rfl

lemma getHeight_eq_zero_of_vertices_none (t : HeightFieldTerrain) (x y : ℚ)
    (h : t.getNearestVertices x y = none) : t.getHeight x y = 0 := by
  unfold HeightFieldTerrain.getHeight
  rw [h]

/-! ## Slicing, flattening and argmax lemmas -/

lemma pySlice_subset {α : Type} (l : List α) (a b : ℤ) : pySlice l a b ⊆ l := by
  unfold pySlice
  dsimp only
  intro x hx
  exact List.drop_subset _ _ (List.take_subset _ _ hx)

lemma pySlice_length {α : Type} (l : List α) (a b : ℤ)
    (h0 : 0 ≤ a) (hab : a ≤ b) (hb : b ≤ (l.length : ℤ)) :
    (pySlice l a b).length = (b - a).toNat := by
  unfold pySlice
  dsimp only
  rw [if_neg (by omega), if_neg (by omega)]
  have h1 : (min a (l.length : ℤ)).toNat = a.toNat := by omega
  have h2 : (min b (l.length : ℤ) - min a (l.length : ℤ)).toNat = (b - a).toNat := by
    omega
  rw [h1, h2]
  simp only [List.length_take, List.length_drop]
  omega

lemma pySlice_getD {α : Type} (l : List α) (a b : ℤ) (j : ℕ) (d : α)
    (h0 : 0 ≤ a) (hb : b ≤ (l.length : ℤ)) (hj : (j : ℤ) < b - a) :
    (pySlice l a b).getD j d = l.getD (a.toNat + j) d := by
  unfold pySlice
  dsimp only
  rw [if_neg (by omega), if_neg (by omega)]
  have h1 : (min a (l.length : ℤ)).toNat = a.toNat := by omega
  have h2 : (min b (l.length : ℤ) - min a (l.length : ℤ)).toNat = (b - a).toNat := by
    omega
  rw [h1, h2, List.getD_eq_getElem?_getD, List.getElem?_take, if_pos (by omega),
    List.getElem?_drop, ← List.getD_eq_getElem?_getD]

lemma flatten_length_of_width {α : Type} (L : List (List α)) (w : ℕ)
    (h : ∀ r ∈ L, r.length = w) : L.flatten.length = L.length * w := by
  induction L with
  | nil => simp
  | cons row rest ih =>
    simp only [List.flatten_cons, List.length_append, List.length_cons,
      h row (by simp), ih (fun r hr => h r (by simp [hr]))]
    ring

lemma flatten_getD_of_width {α : Type} (L : List (List α)) (w : ℕ) (d : α)
    (h : ∀ r ∈ L, r.length = w) (q r : ℕ) (hq : q < L.length) (hr : r < w) :
    L.flatten.getD (q * w + r) d = (L.getD q []).getD r d := by
  induction L generalizing q with
  | nil => simp at hq
  | cons row rest ih =>
    have hrow : row.length = w := h row (by simp)
    cases q with
    | zero =>
      simp only [List.flatten_cons, zero_mul, zero_add, List.getD_cons_zero]
      rw [List.getD_eq_getElem?_getD, List.getElem?_append, if_pos (by omega),
        ← List.getD_eq_getElem?_getD]
    | succ m =>
      have hidx : (m + 1) * w + r = row.length + (m * w + r) := by
        rw [hrow]; ring
      simp only [List.flatten_cons, List.getD_cons_succ]
      rw [hidx, List.getD_eq_getElem?_getD, List.getElem?_append_right (by omega),
        ← List.getD_eq_getElem?_getD]
      have : row.length + (m * w + r) - row.length = m * w + r := by omega
      rw [this]
      exact ih (fun r' hr' => h r' (by simp [hr'])) m (by simpa using hq)

lemma argmaxAux_of_all_le (l : List ℚ) (i best : ℕ) (bv : ℚ)
    (h : ∀ x ∈ l, x ≤ bv) : argmaxAux l i best bv = best := by
  induction l generalizing i with
  | nil => rfl
  | cons a rest ih =>
    unfold argmaxAux
    rw [if_neg (not_lt.mpr (h a (by simp)))]
    exact ih (i + 1) fun x hx => h x (by simp [hx])

lemma argmaxAux_unique (l : List ℚ) (k : ℕ) (hk : k < l.length) (i best : ℕ) (bv : ℚ)
    (hbv : bv < l.getD k 0)
    (huniq : ∀ j, j < l.length → j ≠ k → l.getD j 0 < l.getD k 0) :
    argmaxAux l i best bv = i + k := by
  induction l generalizing k i best bv with
  | nil => simp at hk
  | cons a rest ih =>
    cases k with
    | zero =>
      unfold argmaxAux
      rw [if_pos (by simpa using hbv)]
      have hrest : argmaxAux rest (i + 1) i a = i := by
        apply argmaxAux_of_all_le
        intro x hx
        obtain ⟨j, hj, rfl⟩ := List.getElem_of_mem hx
        have hlt := huniq (j + 1) (by simpa using Nat.succ_lt_succ hj) (by omega)
        rw [List.getD_cons_succ, List.getD_cons_zero,
          List.getD_eq_getElem _ _ hj] at hlt
        exact hlt.le
      omega
    | succ m =>
      have hm : m < rest.length := by simpa using Nat.lt_of_succ_lt_succ hk
      have hbv' : ∀ b : ℚ, b < (a :: rest).getD (m + 1) 0 → b < rest.getD m 0 := by
        intro b hb
        rwa [List.getD_cons_succ] at hb
      have huniq' : ∀ j, j < rest.length → j ≠ m →
          rest.getD j 0 < rest.getD m 0 := by
        intro j hj hjm
        have := huniq (j + 1) (by simpa using Nat.succ_lt_succ hj) (by omega)
        rwa [List.getD_cons_succ, List.getD_cons_succ] at this
      unfold argmaxAux
      by_cases hba : bv < a
      · rw [if_pos hba]
        have ha : a < rest.getD m 0 := by
          have := huniq 0 (by simp) (by omega)
          rwa [List.getD_cons_zero, List.getD_cons_succ] at this
        have := ih m hm (i + 1) i a ha huniq'
        omega
      · rw [if_neg hba]
        have := ih m hm (i + 1) best bv (hbv' bv hbv) huniq'
        omega

lemma argmaxList_unique (l : List ℚ) (k : ℕ) (hk : k < l.length)
    (huniq : ∀ j, j < l.length → j ≠ k → l.getD j 0 < l.getD k 0) :
    argmaxList l = k := by
  cases l with
  | nil => simp at hk
  | cons a rest =>
    cases k with
    | zero =>
      show argmaxAux rest 1 0 a = 0
      apply argmaxAux_of_all_le
      intro x hx
      obtain ⟨j, hj, rfl⟩ := List.getElem_of_mem hx
      have hlt := huniq (j + 1) (by simpa using Nat.succ_lt_succ hj) (by omega)
      rw [List.getD_cons_succ, List.getD_cons_zero,
        List.getD_eq_getElem _ _ hj] at hlt
      exact hlt.le
    | succ m =>
      show argmaxAux rest 1 0 a = m + 1
      have ha : a < rest.getD m 0 := by
        have := huniq 0 (by simp) (by omega)
        rwa [List.getD_cons_zero, List.getD_cons_succ] at this
      have huniq' : ∀ j, j < rest.length → j ≠ m →
          rest.getD j 0 < rest.getD m 0 := by
        intro j hj hjm
        have := huniq (j + 1) (by simpa using Nat.succ_lt_succ hj) (by omega)
        rwa [List.getD_cons_succ, List.getD_cons_succ] at this
      have := argmaxAux_unique rest m (by simpa using Nat.lt_of_succ_lt_succ hk)
        1 0 a ha huniq'
      omega

lemma headI_eq_getD {α : Type} (L : List (List α)) : L.headI = L.getD 0 [] := by
  cases L <;> rfl

lemma slicedGrid_getD (t : HeightFieldTerrain)
    (hrect : ∀ row ∈ t.heightField, row.length = t.xDim)
    (A B C D : ℤ) (q r : ℕ)
    (hA : 0 ≤ A) (hB : B ≤ (t.xDim : ℤ)) (hr : (r : ℤ) < B - A)
    (hC : 0 ≤ C) (hD : D ≤ (t.yDim : ℤ)) (hq : (q : ℤ) < D - C) :
    (((pySlice t.heightField C D).map (fun row => pySlice row A B)).getD q []).getD r 0
      = t.hfGetZ (C + q) (A + r) := by
  have hydim : t.yDim = t.heightField.length := rfl
  have hlenCD : (pySlice t.heightField C D).length = (D - C).toNat :=
    pySlice_length _ _ _ hC (by omega) (by omega)
  have hqlen : q < ((pySlice t.heightField C D).map
      (fun row => pySlice row A B)).length := by
    rw [List.length_map, hlenCD]
    omega
  have houter : ((pySlice t.heightField C D).map (fun row => pySlice row A B)).getD q []
      = pySlice ((pySlice t.heightField C D).getD q []) A B := by
    rw [List.getD_eq_getElem _ _ hqlen, List.getElem_map,
      List.getD_eq_getElem _ _ (by rw [hlenCD]; omega)]
  have hinner : (pySlice t.heightField C D).getD q [] =
      t.heightField.getD (C.toNat + q) [] :=
    pySlice_getD _ _ _ _ _ hC (by omega) (by omega)
  have hrowlen : (t.heightField.getD (C.toNat + q) []).length = t.xDim := by
    have hbound : C.toNat + q < t.heightField.length := by omega
    rw [List.getD_eq_getElem _ _ hbound]
    exact hrect _ (List.getElem_mem hbound)
  rw [houter, hinner,
    pySlice_getD _ _ _ _ _ hA (by rw [hrowlen]; omega) (by omega)]
  have e1 : (C + (q : ℤ)).toNat = C.toNat + q := by omega
  have e2 : (A + (r : ℤ)).toNat = A.toNat + r := by omega
  simp only [HeightFieldTerrain.hfGetZ, HeightFieldTerrain.hfGet, e1, e2]

/-! ## Claim theorems -/

/-- C1 (amended): a query whose discretized cell indices fall outside the
grid *above* it (so that the cell's upper-right vertex index reaches
`x_dim` or `y_dim`) or more than one full grid extent *below* it (index
`< -dim`) returns exactly 0.0 and never errors; but below-grid indices in
`[-dim, -1]` wrap around numpy-style and generally return nonzero
interpolated heights (see the counterexample), so the claim's "on any
side" is wrong. -/
theorem c1_out_of_grid_height_zero (t : HeightFieldTerrain) (x y : ℚ)
    (h : (t.xDim : ℤ) ≤ t.xCoord2Idx x + 1 ∨ (t.yDim : ℤ) ≤ t.yCoord2Idx y + 1 ∨
         t.xCoord2Idx x < -(t.xDim : ℤ) ∨ t.yCoord2Idx y < -(t.yDim : ℤ)) :
    t.getHeight x y = 0 := by
  apply getHeight_eq_zero_of_vertices_none
  apply getNearestVertices_none_of_access_none
  unfold HeightFieldTerrain.npGet
  rcases h with h | h | h | h
  · right; rw [if_neg]; intro hc; omega
  · left; rw [if_neg]; intro hc; omega
  · left; rw [if_neg]; intro hc; omega
  · right; rw [if_neg]; intro hc; omega

/-- Witness for C1 (amended): on the 5×5 grid a query far above the grid
(indices ≥ 5) returns 0. -/
theorem c1_out_of_grid_height_zero_witness :
    ((exT5.xDim : ℤ) ≤ exT5.xCoord2Idx 10 + 1) ∧ exT5.getHeight 10 10 = 0 :=
  ⟨by norm_num [HeightFieldTerrain.xCoord2Idx, HeightFieldTerrain.xSize,
      HeightFieldTerrain.xDim, exT5, ratTrunc, pyEps, Int.floor_eq_iff],
   c1_out_of_grid_height_zero exT5 10 10
     (Or.inl (by norm_num [HeightFieldTerrain.xCoord2Idx, HeightFieldTerrain.xSize,
       HeightFieldTerrain.xDim, exT5, ratTrunc, pyEps, Int.floor_eq_iff]))⟩

/-- C1 counterexample: on `exTwrap` (5×5, zero except the sample at index
(4,4)), the query `(-3.5, -3.5)` discretizes to cell indices `(-1, -1)` —
outside the grid below the index range — yet `getHeight` returns 2, not
0: numpy wraps the negative indices to the last row/column and
interpolates. -/
theorem c1_counterexample :
    exTwrap.xCoord2Idx (-7/2) = -1 ∧ exTwrap.yCoord2Idx (-7/2) = -1 ∧
    exTwrap.getHeight (-7/2) (-7/2) = 2 := by
  refine ⟨?_, ?_, ?_⟩
  · norm_num [HeightFieldTerrain.xCoord2Idx, HeightFieldTerrain.xSize,
      HeightFieldTerrain.xDim, exTwrap, ratTrunc, pyEps, Int.floor_eq_iff]
  · norm_num [HeightFieldTerrain.yCoord2Idx, HeightFieldTerrain.ySize,
      HeightFieldTerrain.yDim, exTwrap, ratTrunc, pyEps, Int.floor_eq_iff]
  · norm_num [HeightFieldTerrain.getHeight, HeightFieldTerrain.getNearestVertices,
      HeightFieldTerrain.xCoord2Idx, HeightFieldTerrain.yCoord2Idx,
      HeightFieldTerrain.xIdx2Coord, HeightFieldTerrain.yIdx2Coord,
      HeightFieldTerrain.xSize, HeightFieldTerrain.ySize,
      HeightFieldTerrain.xDim, HeightFieldTerrain.yDim,
      HeightFieldTerrain.npGet, HeightFieldTerrain.hfGet,
      exTwrap, ratTrunc, pyEps, Int.floor_eq_iff,
      List.getElem?_cons_zero, List.getElem?_cons_succ, Int.toNat,
      List.getD, Option.getD_some]

/-- C6 (amended): on every in-grid cell `(ix, iy)` (with both resolutions
exceeding the code's `1e-10` epsilon): `getHeight` equals the affine plane
through the selected triangle's three vertices — including `offset.z` —
at every point of the lower and upper triangle EXCEPT the triangle's `v1`
vertex; the planes interpolate the triangle vertices (the solution of the
2×2 edge-vector system), are affine in `(x, y)`, and adjacent triangles
agree along shared edges (the cell diagonal, the top edge and the right
edge); but at the cell's own corner `getHeight` returns the raw grid
sample WITHOUT `offset.z` (the code's exact-vertex shortcut), so the
claim's "including at the triangle's vertices" fails for nonzero vertical
offset. -/
theorem c6_triangle_interpolation (t : HeightFieldTerrain)
    (hxr : pyEps < t.xRsl) (hyr : pyEps < t.yRsl)
    (ix iy : ℤ) (hix0 : 0 ≤ ix) (hix1 : ix + 1 < (t.xDim : ℤ))
    (hiy0 : 0 ≤ iy) (hiy1 : iy + 1 < (t.yDim : ℤ)) :
    (∀ x y : ℚ, t.xCoord2Idx x = ix → t.yCoord2Idx y = iy →
      (x - t.xIdx2Coord ix) / t.xRsl + (y - t.yIdx2Coord iy) / t.yRsl < 1 →
      ¬(x = t.xIdx2Coord ix ∧ y = t.yIdx2Coord iy) →
      t.getHeight x y = t.planeL ix iy x y) ∧
    (∀ x y : ℚ, t.xCoord2Idx x = ix → t.yCoord2Idx y = iy →
      ¬((x - t.xIdx2Coord ix) / t.xRsl + (y - t.yIdx2Coord iy) / t.yRsl < 1) →
      t.getHeight x y = t.planeU ix iy x y) ∧
    (t.planeL ix iy (t.xIdx2Coord ix) (t.yIdx2Coord iy)
        = t.hfGetZ iy ix + t.offsetZ ∧
     t.planeL ix iy (t.xIdx2Coord ix) (t.yIdx2Coord (iy + 1))
        = t.hfGetZ (iy + 1) ix + t.offsetZ ∧
     t.planeL ix iy (t.xIdx2Coord (ix + 1)) (t.yIdx2Coord iy)
        = t.hfGetZ iy (ix + 1) + t.offsetZ ∧
     t.planeU ix iy (t.xIdx2Coord (ix + 1)) (t.yIdx2Coord (iy + 1))
        = t.hfGetZ (iy + 1) (ix + 1) + t.offsetZ ∧
     t.planeU ix iy (t.xIdx2Coord ix) (t.yIdx2Coord (iy + 1))
        = t.hfGetZ (iy + 1) ix + t.offsetZ ∧
     t.planeU ix iy (t.xIdx2Coord (ix + 1)) (t.yIdx2Coord iy)
        = t.hfGetZ iy (ix + 1) + t.offsetZ) ∧
    (∃ a b c : ℚ, ∀ x y : ℚ, t.planeL ix iy x y = a * x + b * y + c) ∧
    (∃ a b c : ℚ, ∀ x y : ℚ, t.planeU ix iy x y = a * x + b * y + c) ∧
    (∀ s : ℚ,
      t.planeL ix iy (t.xIdx2Coord ix + s * t.xRsl) (t.yIdx2Coord iy + (1 - s) * t.yRsl)
        = t.planeU ix iy (t.xIdx2Coord ix + s * t.xRsl)
            (t.yIdx2Coord iy + (1 - s) * t.yRsl)) ∧
    (∀ x : ℚ, t.planeU ix iy x (t.yIdx2Coord (iy + 1))
        = t.planeL ix (iy + 1) x (t.yIdx2Coord (iy + 1))) ∧
    (∀ y : ℚ, t.planeU ix iy (t.xIdx2Coord (ix + 1)) y
        = t.planeL (ix + 1) iy (t.xIdx2Coord (ix + 1)) y) ∧
    t.getHeight (t.xIdx2Coord ix) (t.yIdx2Coord iy) = t.hfGetZ iy ix := by
  have heps : (0 : ℚ) < pyEps := by norm_num [pyEps]
  have h0x : 0 < t.xRsl := lt_trans heps hxr
  have h0y : 0 < t.yRsl := lt_trans heps hyr
  refine ⟨?_, ?_, ?_, ?_, ?_, ?_, ?_, ?_, ?_⟩
  · intro x y hxi hyi hfrac hvx
    exact getHeight_lower_eq_planeL t x y ix iy hxi hyi hix0 hix1 hiy0 hiy1
      h0x h0y hfrac hvx
  · intro x y hxi hyi hfrac
    have hvx : ¬(x = t.xIdx2Coord ix + t.xRsl ∧ y = t.yIdx2Coord iy + t.yRsl) := by
      rintro ⟨hx', _⟩
      have hco : t.xIdx2Coord ix + t.xRsl = t.xIdx2Coord (ix + 1) := by
        unfold HeightFieldTerrain.xIdx2Coord
        push_cast
        ring
      have : t.xCoord2Idx x = ix + 1 := by
        rw [hx', hco]
        exact xCoord2Idx_xIdx2Coord t hxr (ix + 1) (by omega)
      omega
    exact getHeight_upper_eq_planeU t x y ix iy hxi hyi hix0 hix1 hiy0 hiy1
      h0x h0y hfrac hvx
  · refine ⟨?_, ?_, ?_, ?_, ?_, ?_⟩ <;>
    · simp only [HeightFieldTerrain.planeL, HeightFieldTerrain.planeU,
        HeightFieldTerrain.xIdx2Coord, HeightFieldTerrain.yIdx2Coord]
      push_cast
      field_simp
      try ring
  · refine ⟨(t.hfGetZ iy (ix + 1) - t.hfGetZ iy ix) / t.xRsl,
      (t.hfGetZ (iy + 1) ix - t.hfGetZ iy ix) / t.yRsl,
      t.hfGetZ iy ix + t.offsetZ
        - (t.hfGetZ iy (ix + 1) - t.hfGetZ iy ix) / t.xRsl * t.xIdx2Coord ix
        - (t.hfGetZ (iy + 1) ix - t.hfGetZ iy ix) / t.yRsl * t.yIdx2Coord iy,
      fun x y => ?_⟩
    unfold HeightFieldTerrain.planeL
    field_simp
    ring
  · refine ⟨(t.hfGetZ (iy + 1) (ix + 1) - t.hfGetZ (iy + 1) ix) / t.xRsl,
      (t.hfGetZ (iy + 1) (ix + 1) - t.hfGetZ iy (ix + 1)) / t.yRsl,
      t.hfGetZ (iy + 1) (ix + 1) + t.offsetZ
        - (t.hfGetZ (iy + 1) (ix + 1) - t.hfGetZ (iy + 1) ix) / t.xRsl
            * t.xIdx2Coord (ix + 1)
        - (t.hfGetZ (iy + 1) (ix + 1) - t.hfGetZ iy (ix + 1)) / t.yRsl
            * t.yIdx2Coord (iy + 1),
      fun x y => ?_⟩
    unfold HeightFieldTerrain.planeU
    field_simp
    ring
  · intro s
    unfold HeightFieldTerrain.planeL HeightFieldTerrain.planeU
      HeightFieldTerrain.xIdx2Coord HeightFieldTerrain.yIdx2Coord
    push_cast
    field_simp
    ring
  · intro x
    unfold HeightFieldTerrain.planeL HeightFieldTerrain.planeU
      HeightFieldTerrain.xIdx2Coord HeightFieldTerrain.yIdx2Coord
    push_cast
    field_simp
    ring
  · intro y
    unfold HeightFieldTerrain.planeL HeightFieldTerrain.planeU
      HeightFieldTerrain.xIdx2Coord HeightFieldTerrain.yIdx2Coord
    push_cast
    field_simp
    ring
  · rw [HeightFieldTerrain.getHeight,
      getNearestVertices_in_bounds t _ _ ix iy
        (xCoord2Idx_xIdx2Coord t hxr ix hix0) (yCoord2Idx_yIdx2Coord t hyr iy hiy0)
        hix0 hix1 hiy0 hiy1,
      if_pos (by simp [sub_self])]
    dsimp only
    rw [if_pos ⟨rfl, rfl⟩]

/-- Witness for C6 (amended) on the offset 5×5 grid: the query `(1/4, 1/4)`
lies in the lower triangle of cell (2,2) and `getHeight` agrees with the
triangle's plane; at the cell corner it returns the raw sample. -/
theorem c6_triangle_interpolation_witness :
    exToff.getHeight (1/4) (1/4) = exToff.planeL 2 2 (1/4) (1/4) ∧
    exToff.getHeight 0 0 = exToff.hfGetZ 2 2 := by
  have h := c6_triangle_interpolation exToff (by norm_num [exToff, pyEps])
    (by norm_num [exToff, pyEps]) 2 2 (by norm_num)
    (by norm_num [exToff, HeightFieldTerrain.xDim]) (by norm_num)
    (by norm_num [exToff, HeightFieldTerrain.yDim])
  have hx0 : exToff.xIdx2Coord 2 = 0 := by
    norm_num [HeightFieldTerrain.xIdx2Coord, HeightFieldTerrain.xSize,
      HeightFieldTerrain.xDim, exToff]
  have hy0 : exToff.yIdx2Coord 2 = 0 := by
    norm_num [HeightFieldTerrain.yIdx2Coord, HeightFieldTerrain.ySize,
      HeightFieldTerrain.yDim, exToff]
  constructor
  · refine h.1 (1/4) (1/4) ?_ ?_ ?_ ?_
    · norm_num [HeightFieldTerrain.xCoord2Idx, HeightFieldTerrain.xSize,
        HeightFieldTerrain.xDim, exToff, ratTrunc, pyEps, Int.floor_eq_iff]
    · norm_num [HeightFieldTerrain.yCoord2Idx, HeightFieldTerrain.ySize,
        HeightFieldTerrain.yDim, exToff, ratTrunc, pyEps, Int.floor_eq_iff]
    · rw [hx0, hy0]
      norm_num [exToff]
    · rw [hx0, hy0]
      norm_num
  · have h6 := h.2.2.2.2.2.2.2.2
    rw [hx0, hy0] at h6
    exact h6

/-- C6 counterexample: on the 5×5 grid with vertical offset 1, at the grid
vertex (0,0) (cell corner of (2,2), sample 1) `getHeight` returns the raw
sample 1, while the triangle's interpolating plane — the claim's
`c1*dz1 + c2*dz2 + v1.z + offset.z` with `c1 = c2 = 0` — gives 2: the
exact-vertex shortcut drops `offset.z`, so `getHeight` is not the affine
interpolant at triangle vertices. -/
theorem c6_counterexample :
    exToff.getHeight 0 0 = 1 ∧ exToff.planeL 2 2 0 0 = 2 := by
  constructor
  · norm_num [HeightFieldTerrain.getHeight, HeightFieldTerrain.getNearestVertices,
      HeightFieldTerrain.xCoord2Idx, HeightFieldTerrain.yCoord2Idx,
      HeightFieldTerrain.xIdx2Coord, HeightFieldTerrain.yIdx2Coord,
      HeightFieldTerrain.xSize, HeightFieldTerrain.ySize,
      HeightFieldTerrain.xDim, HeightFieldTerrain.yDim,
      HeightFieldTerrain.npGet, HeightFieldTerrain.hfGet,
      exToff, ratTrunc, pyEps, Int.floor_eq_iff,
      List.getElem?_cons_zero, List.getElem?_cons_succ, Int.toNat,
      List.getD, Option.getD_some]
  · norm_num [HeightFieldTerrain.planeL, HeightFieldTerrain.hfGetZ,
      HeightFieldTerrain.hfGet, HeightFieldTerrain.xIdx2Coord,
      HeightFieldTerrain.yIdx2Coord, HeightFieldTerrain.xSize,
      HeightFieldTerrain.ySize, HeightFieldTerrain.xDim, HeightFieldTerrain.yDim,
      exToff, Int.toNat, List.getD, Option.getD_some,
      List.getElem?_cons_zero, List.getElem?_cons_succ]

/-- C5 (amended): for a query rectangle whose converted index bounds
(lower `toIndex(lo)`, upper `toIndex(hi) + 1`, the one-cell upper-edge
expansion) lie inside the grid's index range, and whose scanned window
holds a unique maximum at window offset `(dx, dy)` from the lower index
corner, `getMaxHeightInRange` returns exactly that cell's height together
with the coordinates `x_lower + dx*x_rsl`, `y_lower + dy*y_rsl` — the
query's lower corner shifted by the cell offset.  These equal the max
cell's world coordinates precisely when the lower corner is grid-aligned
(last two conjuncts); for an unaligned corner they differ (see the
counterexample), so the returned point is not in general the cell's world
coordinate. -/
theorem c5_peak_in_region (t : HeightFieldTerrain) (wf : t.wellFormed)
    (xlo xhi ylo yhi : ℚ)
    (hxlo : 0 ≤ t.xCoord2Idx xlo) (hxhi : t.xCoord2Idx xhi + 1 ≤ (t.xDim : ℤ))
    (hylo : 0 ≤ t.yCoord2Idx ylo) (hyhi : t.yCoord2Idx yhi + 1 ≤ (t.yDim : ℤ))
    (dx dy : ℕ)
    (hdx : (dx : ℤ) ≤ t.xCoord2Idx xhi - t.xCoord2Idx xlo)
    (hdy : (dy : ℤ) ≤ t.yCoord2Idx yhi - t.yCoord2Idx ylo)
    (huniq : ∀ dj di : ℕ,
      (dj : ℤ) ≤ t.yCoord2Idx yhi - t.yCoord2Idx ylo →
      (di : ℤ) ≤ t.xCoord2Idx xhi - t.xCoord2Idx xlo →
      ¬(dj = dy ∧ di = dx) →
      t.hfGetZ (t.yCoord2Idx ylo + dj) (t.xCoord2Idx xlo + di)
        < t.hfGetZ (t.yCoord2Idx ylo + dy) (t.xCoord2Idx xlo + dx)) :
    t.getMaxHeightInRange (xlo, xhi) (ylo, yhi) =
      some (xlo + (dx : ℚ) * t.xRsl, ylo + (dy : ℚ) * t.yRsl,
        t.hfGetZ (t.yCoord2Idx ylo + dy) (t.xCoord2Idx xlo + dx)) ∧
    (xlo = t.xIdx2Coord (t.xCoord2Idx xlo) →
      xlo + (dx : ℚ) * t.xRsl = t.xIdx2Coord (t.xCoord2Idx xlo + dx)) ∧
    (ylo = t.yIdx2Coord (t.yCoord2Idx ylo) →
      ylo + (dy : ℚ) * t.yRsl = t.yIdx2Coord (t.yCoord2Idx ylo + dy)) := by
  obtain ⟨hy2, hx2, hrect, h0x, h0y⟩ := wf
  refine ⟨?_, ?_, ?_⟩
  · unfold HeightFieldTerrain.getMaxHeightInRange
    dsimp only
    set A := t.xCoord2Idx xlo with hA_def
    set B := t.xCoord2Idx xhi + 1 with hB_def
    set C := t.yCoord2Idx ylo with hC_def
    set D := t.yCoord2Idx yhi + 1 with hD_def
    set P := (pySlice t.heightField C D).map (fun row => pySlice row A B) with hP_def
    set w := (B - A).toNat with hw_def
    set H := (D - C).toNat with hH_def
    have hydim : t.yDim = t.heightField.length := rfl
    have hdxw : dx < w := by omega
    have hdyH : dy < H := by omega
    have hrowsP : ∀ row ∈ P, row.length = w := by
      intro row hrow
      rw [hP_def] at hrow
      obtain ⟨row0, hrow0, rfl⟩ := List.mem_map.mp hrow
      have : row0 ∈ t.heightField := pySlice_subset _ _ _ hrow0
      have hlen0 : row0.length = t.xDim := hrect _ this
      rw [pySlice_length _ _ _ (by omega) (by omega) (by omega)]
    have hlenP : P.length = H := by
      rw [hP_def, List.length_map, pySlice_length _ _ _ (by omega) (by omega) (by omega)]
    have hflatlen : P.flatten.length = H * w := by
      rw [flatten_length_of_width P w hrowsP, hlenP]
    have hpos : 0 < P.flatten.length := by
      rw [hflatlen]
      exact Nat.mul_pos (by omega) (by omega)
    rw [if_neg (by simp only [List.isEmpty_iff]; exact List.length_pos.mp hpos)]
    have hheadI : P.headI.length = w := by
      rw [headI_eq_getD, List.getD_eq_getElem _ _ (by omega)]
      exact hrowsP _ (List.getElem_mem (by omega))
    have hwindow : ∀ q r : ℕ, q < H → r < w →
        P.flatten.getD (q * w + r) 0 = t.hfGetZ (C + q) (A + r) := by
      intro q r hq hr
      rw [flatten_getD_of_width P w 0 hrowsP q r (by omega) hr, hP_def]
      exact slicedGrid_getD t hrect A B C D q r (by omega) (by omega) (by omega)
        (by omega) (by omega) (by omega)
    have hargmax : argmaxList P.flatten = dy * w + dx := by
      apply argmaxList_unique _ _ (by rw [hflatlen]; nlinarith)
      intro j hj hjne
      rw [hflatlen] at hj
      have hw0 : 0 < w := by omega
      have hr : j % w < w := Nat.mod_lt _ hw0
      have hqr : j = j / w * w + j % w := by
        rw [mul_comm]
        exact (Nat.div_add_mod j w).symm
      have hq : j / w < H := by
        rw [Nat.div_lt_iff_lt_mul hw0]
        exact hj
      rw [hqr, hwindow _ _ hq hr, hwindow dy dx hdyH hdxw]
      apply huniq (j / w) (j % w) (by omega) (by omega)
      rintro ⟨hq', hr'⟩
      exact hjne (by rw [hqr, hq', hr'])
    rw [hargmax, hheadI]
    have hmod : (dy * w + dx) % w = dx := by
      rw [show dy * w + dx = dx + w * dy by ring, Nat.add_mul_mod_self_left,
        Nat.mod_eq_of_lt hdxw]
    have hdiv : (dy * w + dx) / w = dy := by
      rw [show dy * w + dx = dx + w * dy by ring,
        Nat.add_mul_div_left _ _ (by omega : 0 < w), Nat.div_eq_of_lt hdxw]
      omega
    rw [hmod, hdiv, hP_def]
    rw [slicedGrid_getD t hrect A B C D dy dx (by omega) (by omega) (by omega)
      (by omega) (by omega) (by omega)]
  · intro hal
    set i := t.xCoord2Idx xlo with hi
    rw [hal]
    unfold HeightFieldTerrain.xIdx2Coord
    push_cast
    ring
  · intro hal
    set i := t.yCoord2Idx ylo with hi
    rw [hal]
    unfold HeightFieldTerrain.yIdx2Coord
    push_cast
    ring

/-- Witness for C5 (amended) on the 5×5 grid: the grid-aligned region
`((-1,1),(-1,1))` contains the unique maximum at window offset (1,1). -/
theorem c5_peak_in_region_witness :
    exT5.wellFormed ∧
    exT5.getMaxHeightInRange (-1, 1) (-1, 1) =
      some ((-1) + ((1 : ℕ) : ℚ) * exT5.xRsl, (-1) + ((1 : ℕ) : ℚ) * exT5.yRsl,
        exT5.hfGetZ (exT5.yCoord2Idx (-1) + (1 : ℕ)) (exT5.xCoord2Idx (-1) + (1 : ℕ))) := by
  have hwf : exT5.wellFormed := by
    refine ⟨by norm_num [HeightFieldTerrain.yDim, exT5],
      by norm_num [HeightFieldTerrain.xDim, exT5], ?_,
      by norm_num [exT5], by norm_num [exT5]⟩
    simp [exT5, HeightFieldTerrain.xDim, List.forall_mem_cons]
  have hxm1 : exT5.xCoord2Idx (-1) = 1 := by
    norm_num [HeightFieldTerrain.xCoord2Idx, HeightFieldTerrain.xSize,
      HeightFieldTerrain.xDim, exT5, ratTrunc, pyEps, Int.floor_eq_iff]
  have hx1 : exT5.xCoord2Idx 1 = 3 := by
    norm_num [HeightFieldTerrain.xCoord2Idx, HeightFieldTerrain.xSize,
      HeightFieldTerrain.xDim, exT5, ratTrunc, pyEps, Int.floor_eq_iff]
  have hym1 : exT5.yCoord2Idx (-1) = 1 := by
    norm_num [HeightFieldTerrain.yCoord2Idx, HeightFieldTerrain.ySize,
      HeightFieldTerrain.yDim, exT5, ratTrunc, pyEps, Int.floor_eq_iff]
  have hy1 : exT5.yCoord2Idx 1 = 3 := by
    norm_num [HeightFieldTerrain.yCoord2Idx, HeightFieldTerrain.ySize,
      HeightFieldTerrain.yDim, exT5, ratTrunc, pyEps, Int.floor_eq_iff]
  have hdim : exT5.xDim = 5 ∧ exT5.yDim = 5 := by
    constructor <;> norm_num [HeightFieldTerrain.xDim, HeightFieldTerrain.yDim, exT5]
  refine ⟨hwf, (c5_peak_in_region exT5 hwf (-1) 1 (-1) 1 ?_ ?_ ?_ ?_ 1 1 ?_ ?_ ?_).1⟩
  · rw [hxm1]; norm_num
  · rw [hx1]; omega
  · rw [hym1]; norm_num
  · rw [hy1]; omega
  · rw [hxm1, hx1]; norm_num
  · rw [hym1, hy1]; norm_num
  · intro dj di hdj hdi hne
    rw [hym1, hy1] at hdj
    rw [hxm1, hx1] at hdi
    rw [hxm1, hym1]
    have hdj' : dj ≤ 2 := by exact_mod_cast (by omega : (dj : ℤ) ≤ 2)
    have hdi' : di ≤ 2 := by exact_mod_cast (by omega : (di : ℤ) ≤ 2)
    interval_cases dj <;> interval_cases di <;>
      simp_all [HeightFieldTerrain.hfGetZ, HeightFieldTerrain.hfGet, exT5,
        Int.toNat, List.getD, List.getElem?_cons_zero, List.getElem?_cons_succ,
        Option.getD_some]

/-- C5 counterexample: on the 5×5 unit grid the region
`((-0.5, 1), (-0.5, 1))` contains the unique maximum cell (2,2), whose
world coordinates are (0,0); yet `getMaxHeightInRange` returns the point
`(0.5, 0.5)` (the query's lower corner plus the cell offset), not the
cell's world coordinates — only the height 1 is exact. -/
theorem c5_counterexample :
    exT5.getMaxHeightInRange (-1/2, 1) (-1/2, 1) = some (1/2, 1/2, 1) ∧
    exT5.xIdx2Coord 2 = 0 ∧ exT5.yIdx2Coord 2 = 0 ∧ ((1 : ℚ)/2 ≠ 0) := by
  refine ⟨?_, ?_, ?_, by norm_num⟩
  · norm_num [HeightFieldTerrain.getMaxHeightInRange,
      HeightFieldTerrain.xCoord2Idx, HeightFieldTerrain.yCoord2Idx,
      HeightFieldTerrain.xSize, HeightFieldTerrain.ySize,
      HeightFieldTerrain.xDim, HeightFieldTerrain.yDim,
      exT5, ratTrunc, pyEps, Int.floor_eq_iff,
      pySlice, argmaxList, argmaxAux, Int.toNat,
      List.getD, Option.getD_some]
  · norm_num [HeightFieldTerrain.xIdx2Coord, HeightFieldTerrain.xSize,
      HeightFieldTerrain.xDim, exT5]
  · norm_num [HeightFieldTerrain.yIdx2Coord, HeightFieldTerrain.ySize,
      HeightFieldTerrain.yDim, exT5]

/-- C4 (amended): the coordinate-to-index conversion is Python `int()`
(truncation toward zero) of `(coord + 1e-10 + axis_size/2 − axis_offset) /
axis_resolution` — including the code's `1e-10` nudge; it agrees with the
`floor` of that (nudged) argument whenever the argument is nonnegative
(i.e. at or above the grid's lower edge), but not below it, where
truncation rounds toward zero; `toCoord(i) = i*rsl − size/2 + offset` is
its inverse on grid indices `i ≥ 0` provided the resolution exceeds
`1e-10`; each axis is converted independently. -/
theorem c4_index_conversion (t : HeightFieldTerrain)
    (hx : pyEps < t.xRsl) (hy : pyEps < t.yRsl) :
    (∀ x : ℚ, 0 ≤ x + pyEps + t.xSize / 2 - t.offsetX →
      t.xCoord2Idx x = ⌊(x + pyEps + t.xSize / 2 - t.offsetX) / t.xRsl⌋) ∧
    (∀ i : ℕ, t.xCoord2Idx (t.xIdx2Coord i) = i) ∧
    (∀ y : ℚ, 0 ≤ y + pyEps + t.ySize / 2 - t.offsetY →
      t.yCoord2Idx y = ⌊(y + pyEps + t.ySize / 2 - t.offsetY) / t.yRsl⌋) ∧
    (∀ i : ℕ, t.yCoord2Idx (t.yIdx2Coord i) = i) := by
  have heps : (0 : ℚ) < pyEps := by norm_num [pyEps]
  have hx0 : 0 < t.xRsl := lt_trans heps hx
  have hy0 : 0 < t.yRsl := lt_trans heps hy
  have hdx0 : 0 ≤ pyEps / t.xRsl := div_nonneg heps.le hx0.le
  have hdx1 : pyEps / t.xRsl < 1 := by rw [div_lt_one hx0]; exact hx
  have hdy0 : 0 ≤ pyEps / t.yRsl := div_nonneg heps.le hy0.le
  have hdy1 : pyEps / t.yRsl < 1 := by rw [div_lt_one hy0]; exact hy
  refine ⟨?_, ?_, ?_, ?_⟩
  · intro x hnum
    unfold HeightFieldTerrain.xCoord2Idx
    exact ratTrunc_eq_floor _ (div_nonneg hnum hx0.le)
  · intro i
    unfold HeightFieldTerrain.xCoord2Idx HeightFieldTerrain.xIdx2Coord
    simp only [Int.cast_natCast]
    have harg : ((i : ℚ) * t.xRsl - t.xSize / 2 + t.offsetX + pyEps + t.xSize / 2
        - t.offsetX) / t.xRsl = (i : ℚ) + pyEps / t.xRsl := by
      field_simp
      ring
    rw [harg, ratTrunc_eq_floor _ (by positivity)]
    exact floor_nat_add_of_lt_one i _ hdx0 hdx1
  · intro y hnum
    unfold HeightFieldTerrain.yCoord2Idx
    exact ratTrunc_eq_floor _ (div_nonneg hnum hy0.le)
  · intro i
    unfold HeightFieldTerrain.yCoord2Idx HeightFieldTerrain.yIdx2Coord
    simp only [Int.cast_natCast]
    have harg : ((i : ℚ) * t.yRsl - t.ySize / 2 + t.offsetY + pyEps + t.ySize / 2
        - t.offsetY) / t.yRsl = (i : ℚ) + pyEps / t.yRsl := by
      field_simp
      ring
    rw [harg, ratTrunc_eq_floor _ (by positivity)]
    exact floor_nat_add_of_lt_one i _ hdy0 hdy1

/-- Witness for C4 (amended) on the 5×5 grid with unit resolution. -/
theorem c4_index_conversion_witness :
    pyEps < exT5.xRsl ∧ exT5.xCoord2Idx (exT5.xIdx2Coord 3) = 3 ∧
    exT5.yCoord2Idx (exT5.yIdx2Coord 1) = 1 :=
  ⟨by norm_num [exT5, pyEps],
   (c4_index_conversion exT5 (by norm_num [exT5, pyEps])
     (by norm_num [exT5, pyEps])).2.1 3,
   (c4_index_conversion exT5 (by norm_num [exT5, pyEps])
     (by norm_num [exT5, pyEps])).2.2.2 1⟩

/-- C4 counterexample: on the 5×5 grid with unit resolution and zero
offset, at `x = -2.5` the spec's `floor` formula gives index −1 while the
code's `int()` truncation gives 0 — the conversion is not `floor` below
the grid. -/
theorem c4_counterexample :
    exT5.xCoord2Idx (-5/2) = 0 ∧ HeightFieldTerrain.specToIndexX exT5 (-5/2) = -1 := by
  constructor
  · norm_num [HeightFieldTerrain.xCoord2Idx, HeightFieldTerrain.xSize,
      HeightFieldTerrain.xDim, exT5, ratTrunc, pyEps, Int.floor_eq_iff]
  · norm_num [HeightFieldTerrain.specToIndexX, HeightFieldTerrain.xSize,
      HeightFieldTerrain.xDim, exT5, Int.floor_eq_iff]

/-- C2: starting from the initial curriculum state, for any finite sequence
of `register` calls with any outcomes and streak lengths, the difficulty
level stays in `[0, max_level]` (with `max_level = max_difficulty /
difficulty_step = k`), and after every call `difficulty =
difficulty_level * difficulty_step ∈ [0, max_difficulty]`.  Stated for any
configuration with a positive step whose `max_difficulty` is a multiple of
the step, which the shipped configuration (`defaultCfg`) satisfies. -/
theorem c2_difficulty_bounds (cfg : CurriculumCfg) (k : ℕ)
    (hstep : 0 < cfg.difficulty_step)
    (hmax : cfg.max_difficulty = (k : ℚ) * cfg.difficulty_step)
    (outcomes : List (ℕ × ℚ)) :
    0 ≤ (runCurriculum cfg outcomes).difficulty_level ∧
    (runCurriculum cfg outcomes).difficulty_level ≤ (k : ℤ) ∧
    (runCurriculum cfg outcomes).difficulty =
      ((runCurriculum cfg outcomes).difficulty_level : ℚ) * cfg.difficulty_step ∧
    0 ≤ (runCurriculum cfg outcomes).difficulty ∧
    (runCurriculum cfg outcomes).difficulty ≤ cfg.max_difficulty := by
  obtain ⟨h1, h2, h3⟩ := runCurriculum_inv cfg k hstep hmax outcomes
  refine ⟨h2, h3, h1, ?_, ?_⟩
  · rw [h1]
    have : (0 : ℚ) ≤ ((runCurriculum cfg outcomes).difficulty_level : ℚ) := by
      exact_mod_cast h2
    positivity
  · rw [h1, hmax]
    have : ((runCurriculum cfg outcomes).difficulty_level : ℚ) ≤ (k : ℚ) := by
      exact_mod_cast h3
    nlinarith

/-- Witness for C2 at the shipped configuration (`k = 30`) and a concrete
outcome sequence. -/
theorem c2_difficulty_bounds_witness :
    (0 : ℚ) < defaultCfg.difficulty_step ∧
    defaultCfg.max_difficulty = ((30 : ℕ) : ℚ) * defaultCfg.difficulty_step ∧
    (0 ≤ (runCurriculum defaultCfg [(8000, 3), (0, 0)]).difficulty_level ∧
     (runCurriculum defaultCfg [(8000, 3), (0, 0)]).difficulty_level ≤ ((30 : ℕ) : ℤ) ∧
     (runCurriculum defaultCfg [(8000, 3), (0, 0)]).difficulty =
       ((runCurriculum defaultCfg [(8000, 3), (0, 0)]).difficulty_level : ℚ) *
         defaultCfg.difficulty_step ∧
     0 ≤ (runCurriculum defaultCfg [(8000, 3), (0, 0)]).difficulty ∧
     (runCurriculum defaultCfg [(8000, 3), (0, 0)]).difficulty ≤
       defaultCfg.max_difficulty) :=
  ⟨by norm_num [defaultCfg], by norm_num [defaultCfg],
   c2_difficulty_bounds defaultCfg 30 (by norm_num [defaultCfg])
     (by norm_num [defaultCfg]) [(8000, 3), (0, 0)]⟩

/-- C3: with thresholds combo 3, miss 2, step 0.05, max 0.3 and distance
range (2, 4), from difficulty 0: three consecutive timeout outcomes
(episode length 8000 = `max_sim_iterations`) at distance 5 return `false`
on the first two calls leaving the difficulty at 0, and raise the
difficulty to 0.05 (returning `true`) on the third; two consecutive
non-timeout outcomes immediately afterwards leave it unchanged on the
first and lower it back to 0 on the second. -/
theorem c3_end_to_end_curriculum :
    (register scenarioCfg initCurriculum 8000 5).2 = false ∧
    (runCurriculum scenarioCfg [(8000, 5)]).difficulty = 0 ∧
    (register scenarioCfg (runCurriculum scenarioCfg [(8000, 5)]) 8000 5).2 = false ∧
    (runCurriculum scenarioCfg [(8000, 5), (8000, 5)]).difficulty = 0 ∧
    (register scenarioCfg (runCurriculum scenarioCfg [(8000, 5), (8000, 5)]) 8000 5).2
      = true ∧
    (runCurriculum scenarioCfg [(8000, 5), (8000, 5), (8000, 5)]).difficulty = 1/20 ∧
    (register scenarioCfg
      (runCurriculum scenarioCfg [(8000, 5), (8000, 5), (8000, 5)]) 0 5).2 = false ∧
    (runCurriculum scenarioCfg [(8000, 5), (8000, 5), (8000, 5), (0, 5)]).difficulty
      = 1/20 ∧
    (register scenarioCfg
      (runCurriculum scenarioCfg [(8000, 5), (8000, 5), (8000, 5), (0, 5)]) 0 5).2
      = true ∧
    (runCurriculum scenarioCfg
      [(8000, 5), (8000, 5), (8000, 5), (0, 5), (0, 5)]).difficulty = 0 := by
  norm_num [runCurriculum, register, initCurriculum, scenarioCfg,
    decreaseLevel, increaseLevel, List.foldl]

/-- C7: on the 5×5 grid with resolution 1 m, zero offset and a unique
elevation 1 at index (2,2) (world coordinate (0,0)): `getHeight(0,0) = 1`,
`getHeight(-2,-2) = 0`, and the peak query over `((-1,1),(-1,1))` returns
`(0, 0, 1)`. -/
theorem c7_end_to_end_geometry :
    exT5.getHeight 0 0 = 1 ∧ exT5.getHeight (-2) (-2) = 0 ∧
    exT5.getMaxHeightInRange (-1, 1) (-1, 1) = some (0, 0, 1) := by
  refine ⟨?_, ?_, ?_⟩
  · norm_num [HeightFieldTerrain.getHeight, HeightFieldTerrain.getNearestVertices,
      HeightFieldTerrain.xCoord2Idx, HeightFieldTerrain.yCoord2Idx,
      HeightFieldTerrain.xIdx2Coord, HeightFieldTerrain.yIdx2Coord,
      HeightFieldTerrain.xSize, HeightFieldTerrain.ySize,
      HeightFieldTerrain.xDim, HeightFieldTerrain.yDim,
      HeightFieldTerrain.npGet, HeightFieldTerrain.hfGet,
      exT5, ratTrunc, pyEps, Int.floor_eq_iff, Option.bind,
      List.getElem?_cons_zero, List.getElem?_cons_succ, Int.toNat,
      List.getD, Option.getD_some]
  · norm_num [HeightFieldTerrain.getHeight, HeightFieldTerrain.getNearestVertices,
      HeightFieldTerrain.xCoord2Idx, HeightFieldTerrain.yCoord2Idx,
      HeightFieldTerrain.xIdx2Coord, HeightFieldTerrain.yIdx2Coord,
      HeightFieldTerrain.xSize, HeightFieldTerrain.ySize,
      HeightFieldTerrain.xDim, HeightFieldTerrain.yDim,
      HeightFieldTerrain.npGet, HeightFieldTerrain.hfGet,
      exT5, ratTrunc, pyEps, Int.floor_eq_iff, Option.bind,
      List.getElem?_cons_zero, List.getElem?_cons_succ, Int.toNat,
      List.getD, Option.getD_some]
  · norm_num [HeightFieldTerrain.getMaxHeightInRange,
      HeightFieldTerrain.xCoord2Idx, HeightFieldTerrain.yCoord2Idx,
      HeightFieldTerrain.xSize, HeightFieldTerrain.ySize,
      HeightFieldTerrain.xDim, HeightFieldTerrain.yDim,
      exT5, ratTrunc, pyEps, Int.floor_eq_iff,
      pySlice, argmaxList, argmaxAux, Int.toNat,
      List.getD, Option.getD_some]

/-- C8: with the seed and octave specification fixed, the procedural
generation of `RandomUniformTerrain` is bit-reproducible: the synthesized
height field does not depend on the ambient RNG entropy, because
`np.random.seed(seed)` resets the process RNG to a state that is a
function of the seed alone, and sampling, spline fitting and evaluation
are deterministic. -/
theorem c8_generation_determinism (mtInit : ℤ → ℕ) (unitStream : ℕ → ℕ → ℚ)
    (fit : List ℚ → List (List ℚ) → ℚ → ℚ → ℚ) (size : ℚ) (downsample : ℕ)
    (roughness resolution : ℚ) (seed : ℤ) (entropy₁ entropy₂ : ℕ) :
    randomUniformHeightField mtInit unitStream fit size downsample roughness
      resolution (some seed) entropy₁ =
    randomUniformHeightField mtInit unitStream fit size downsample roughness
      resolution (some seed) entropy₂ := rfl

/-- C9 (amended): `PlainTerrain.getHeight` is constantly 0,
`PlainTerrain.getNormal` is constantly the up vector `(0,0,1)`, and
`PlainTerrain.getMaxHeightInRange` returns the constant `(0, 0, 0)` — the
world origin at height 0 — for every region (not the region's center). -/
theorem c9_plain_terrain (x y : ℚ) (xRange yRange : ℚ × ℚ) :
    plainGetHeight x y = 0 ∧ plainGetNormal x y = (0, 0, 1) ∧
    plainGetMaxHeightInRange xRange yRange = (0, 0, 0) :=
  ⟨rfl, rfl, rfl⟩

/-- C9 counterexample: over the region `x ∈ (2,4), y ∈ (2,4)` the plain
terrain's peak query returns `(0, 0, 0)`, not the region's center
`(3, 3, 0)` claimed by the spec. -/
theorem c9_counterexample :
    plainGetMaxHeightInRange (2, 4) (2, 4) = (0, 0, 0) ∧
    specPlainPeak (2, 4) (2, 4) = (3, 3, 0) ∧
    plainGetMaxHeightInRange (2, 4) (2, 4) ≠ specPlainPeak (2, 4) (2, 4) := by
  refine ⟨rfl, by norm_num [specPlainPeak], ?_⟩
  norm_num [plainGetMaxHeightInRange, specPlainPeak, Prod.ext_iff]

/-- C10: `register` zeroes the miss streak and increments the combo streak
on a timeout outcome, zeroes the combo streak and increments the miss
streak otherwise; hence after any call at most one of the two counters is
nonzero, and in every state reachable from the initial curriculum the two
counters are never both positive. -/
theorem c10_streak_exclusivity (cfg : CurriculumCfg) (s : CurriculumState)
    (episode_len : ℕ) (distance : ℚ) :
    (episode_len = cfg.max_sim_iterations →
      (register cfg s episode_len distance).1.miss = 0 ∧
      (register cfg s episode_len distance).1.combo = s.combo + 1) ∧
    (episode_len ≠ cfg.max_sim_iterations →
      (register cfg s episode_len distance).1.combo = 0 ∧
      (register cfg s episode_len distance).1.miss = s.miss + 1) ∧
    ((register cfg s episode_len distance).1.miss = 0 ∨
     (register cfg s episode_len distance).1.combo = 0) ∧
    (∀ outcomes : List (ℕ × ℚ),
      ¬(0 < (runCurriculum cfg outcomes).combo ∧
        0 < (runCurriculum cfg outcomes).miss)) := by
  have hmc : ∀ (s' : CurriculumState) (el : ℕ) (d : ℚ),
      (el = cfg.max_sim_iterations →
        (register cfg s' el d).1.miss = 0 ∧
        (register cfg s' el d).1.combo = s'.combo + 1) ∧
      (el ≠ cfg.max_sim_iterations →
        (register cfg s' el d).1.combo = 0 ∧
        (register cfg s' el d).1.miss = s'.miss + 1) := by
    intro s' el d
    constructor
    · intro h
      subst h
      simp only [register]
      split_ifs <;>
        simp_all [decreaseLevel_miss, decreaseLevel_combo,
          increaseLevel_miss, increaseLevel_combo]
    · intro h
      simp only [register, if_neg h]
      split_ifs <;>
        simp_all [decreaseLevel_miss, decreaseLevel_combo,
          increaseLevel_miss, increaseLevel_combo]
  refine ⟨(hmc s episode_len distance).1, (hmc s episode_len distance).2, ?_, ?_⟩
  · by_cases h : episode_len = cfg.max_sim_iterations
    · exact Or.inl ((hmc s episode_len distance).1 h).1
    · exact Or.inr ((hmc s episode_len distance).2 h).1
  · intro outcomes
    induction outcomes using List.reverseRecOn with
    | nil => simp [runCurriculum, initCurriculum]
    | append_singleton os o _ =>
      have hrun : runCurriculum cfg (os ++ [o]) =
          (register cfg (runCurriculum cfg os) o.1 o.2).1 := by
        simp [runCurriculum, List.foldl_append]
      rw [hrun]
      by_cases h : o.1 = cfg.max_sim_iterations
      · have := ((hmc (runCurriculum cfg os) o.1 o.2).1 h).1
        omega
      · have := ((hmc (runCurriculum cfg os) o.1 o.2).2 h).1
        omega

/-- Witness for C10's conditional parts at the shipped configuration. -/
theorem c10_streak_exclusivity_witness :
    (register defaultCfg initCurriculum 8000 5).1.miss = 0 ∧
    (register defaultCfg initCurriculum 8000 5).1.combo = initCurriculum.combo + 1 ∧
    (register defaultCfg initCurriculum 7 5).1.combo = 0 ∧
    (register defaultCfg initCurriculum 7 5).1.miss = initCurriculum.miss + 1 :=
  ⟨((c10_streak_exclusivity defaultCfg initCurriculum 8000 5).1 rfl).1,
   ((c10_streak_exclusivity defaultCfg initCurriculum 8000 5).1 rfl).2,
   ((c10_streak_exclusivity defaultCfg initCurriculum 7 5).2.1 (by norm_num [defaultCfg])).1,
   ((c10_streak_exclusivity defaultCfg initCurriculum 7 5).2.1 (by norm_num [defaultCfg])).2⟩
